import Mathlib

/-
Shallow embedding of the multi-agent message-bus system in src/agents.py:
the Message value type, the MessageBus (registry + history + dispatch),
and the three concrete handlers EchoAgent, DecisionAgent, RouterAgent.

Python dictionaries are modelled as association lists in insertion order,
Python numerics (int/float/bool under isinstance(value, (int, float)))
as rationals, and Python exceptions as an explicit error type threaded
through an `Except`/`Option` result.  Recursive re-entrant `bus.send`
calls made from inside handler reactions are modelled with a fuel
parameter; `none` means the fuel ran out, `some` is a completed run
(possibly one that terminated by raising, carried in the `err` field:
a Python exception unwinds the stack but does not undo prior mutations,
so the mutated state is kept alongside the error).
-/

set_option autoImplicit false

namespace Agents

/-- Python values that can appear in a message payload: numbers
(int/float collapsed to `Rat`, bool kept separate because Python's
`isinstance(b, int)` is true for bools), strings, `None`, and nested
dicts (insertion-ordered association lists). -/
inductive Val where
  | num : Rat → Val
  | bool : Bool → Val
  | str : String → Val
  | none : Val
  | dict : List (String × Val) → Val

/-- Embeds the Message dataclass of src/agents.py: sender, optional
recipient (None broadcasts), topic, payload and meta dicts. -/
structure Message where
  sender : String
  recipient : Option String
  topic : String
  payload : List (String × Val)
  meta : List (String × Val)

/-- Python dict.get(k): first entry with the given key, if any. -/
def pyGet (d : List (String × Val)) (k : String) : Option Val :=
  (d.find? (fun kv => kv.1 == k)).map (fun kv => kv.2)

/-- Python str.startswith. -/
def pyStartsWith (s p : String) : Bool :=
  p.data.isPrefixOf s.data

/-- Python str.endswith. -/
def pyEndsWith (s p : String) : Bool :=
  p.data.isSuffixOf s.data

/-- Python truthiness of an Optional[str]: None and "" are falsy.
This is the test `if msg.recipient:` on line 76 of src/agents.py. -/
def pyTruthy : Option String → Bool
  | Option.none => false
  | Option.some s => !(s == "")

/-- The Python exceptions the embedded code can raise. -/
inductive PyError where
  | valueError
  | typeError
  | attributeError
  | runtimeError
deriving DecidableEq

/-- One `self.send(recipient, topic, payload)` request made by a handler
(BaseAgent.send fills in the sender and an empty meta dict). -/
structure SendReq where
  recipient : Option String
  topic : String
  payload : List (String × Val)

/-- Is a Python value numeric in the sense of
`isinstance(value, (int, float))` (bools included)? -/
def Val.isNumeric : Val → Bool
  | Val.num _ => true
  | Val.bool _ => true
  | _ => false

/-- Numeric content of a numeric value (True is 1, False is 0). -/
def Val.toRat : Val → Rat
  | Val.num q => q
  | Val.bool b => if b then 1 else 0
  | _ => 0

/-- Python `a >= b`: defined for numeric pairs and string pairs,
a TypeError otherwise. -/
def pyGE (a b : Val) : Except PyError Bool :=
  if a.isNumeric && b.isNumeric then Except.ok (decide (b.toRat ≤ a.toRat))
  else
    match a, b with
    | Val.str x, Val.str y => Except.ok (decide (y ≤ x))
    | _, _ => Except.error PyError.typeError

/-- Embeds EchoAgent.handle of src/agents.py.  On a topic equal to
"echo" or starting with "echo." the code evaluates
`self.get_coordination().player_id` to build the reply's recipient;
BaseAgent defines no `get_coordination` attribute, so the call raises
AttributeError before any reply is sent.  Other topics: no reaction. -/
def EchoAgent.handle (msg : Message) : Except PyError (List SendReq) :=
  if msg.topic == "echo" || pyStartsWith msg.topic "echo." then
    Except.error PyError.attributeError
  else Except.ok []

/-- Embeds DecisionAgent.handle of src/agents.py: on topic "score",
reads `value` and `threshold` (default 0) from the payload; a
non-numeric value draws an `invalid_value` error reply; otherwise the
Python comparison `value >= threshold` is evaluated (raising TypeError
when the threshold is not comparable with the numeric value) and one
decision reply is sent to the sender. -/
def DecisionAgent.handle (msg : Message) : Except PyError (List SendReq) :=
  if msg.topic == "score" then
    let value := (pyGet msg.payload "value").getD Val.none
    let threshold := (pyGet msg.payload "threshold").getD (Val.num 0)
    if value.isNumeric then
      match pyGE value threshold with
      | Except.error e => Except.error e
      | Except.ok accepted =>
          Except.ok [⟨Option.some msg.sender, "decision",
            [("accepted", Val.bool accepted), ("value", value),
             ("threshold", threshold)]⟩]
    else
      Except.ok [⟨Option.some msg.sender, "decision",
        [("error", Val.str "invalid_value")]⟩]
  else Except.ok []

/-- Embeds RouterAgent.handle of src/agents.py: self-originated messages
and topics ending in ".reply" are ignored; otherwise the first mapping
entry in insertion order whose key passes `msg.topic.startswith(key)`
gives the forward target, and the message is forwarded with the same
topic and payload, guarded by the `if target:` truthiness check on
line 222: target stays None with no match, and an empty-string target
is falsy too, so both send nothing. -/
def RouterAgent.handle (mapping : List (String × String)) (selfName : String)
    (msg : Message) : Except PyError (List SendReq) :=
  if msg.sender == selfName || pyEndsWith msg.topic ".reply" then Except.ok []
  else
    match mapping.find? (fun kv => pyStartsWith msg.topic kv.1) with
    | Option.some kv =>
        if kv.2 == "" then Except.ok []
        else Except.ok [⟨Option.some kv.2, msg.topic, msg.payload⟩]
    | Option.none => Except.ok []

/-- The three concrete handler policies of src/agents.py. -/
inductive AgentKind where
  | echo : AgentKind
  | decision : AgentKind
  | router : List (String × String) → AgentKind

/-- Dispatch to the concrete handler's reaction, given the handler's own
registered name (RouterAgent consults `self.name`). -/
def AgentKind.handleOf : AgentKind → String → Message → Except PyError (List SendReq)
  | AgentKind.echo, _, msg => EchoAgent.handle msg
  | AgentKind.decision, _, msg => DecisionAgent.handle msg
  | AgentKind.router m, selfName, msg => RouterAgent.handle m selfName msg

/-- A registered agent: its identity, its policy, and its private
inbound log (BaseAgent._inbox). -/
structure Agent where
  name : String
  kind : AgentKind
  inbox : List Message

/-- The MessageBus state: the registry in insertion order
(Python dicts preserve insertion order) and the delivery history. -/
structure BusState where
  agents : List Agent
  hist : List Message

/-- Embeds MessageBus.register of src/agents.py: a name already present
in the registry raises ValueError before any mutation; otherwise the
agent is appended to the registry (and its back-reference bound). -/
def MessageBus.register (s : BusState) (a : Agent) : Except PyError BusState :=
  if s.agents.any (fun b => b.name == a.name) then Except.error PyError.valueError
  else Except.ok { s with agents := s.agents ++ [a] }

/-- Embeds MessageBus.history of src/agents.py: `list(self._history)`,
the recorded sequence by value. -/
def MessageBus.history (s : BusState) : List Message := s.hist

/-- The inbound log of the agent registered under a name ([] if absent). -/
def listInbox : List Agent → String → List Message
  | [], _ => []
  | a :: as, n => if a.name == n then a.inbox else listInbox as n

/-- The inbox of the agent named `n` in a bus state. -/
def inboxOf (s : BusState) (n : String) : List Message :=
  listInbox s.agents n

/-- BaseAgent.receive appends the delivered message to the receiving
agent's inbox. -/
def updAgent (n : String) (m : Message) (a : Agent) : Agent :=
  if a.name == n then { a with inbox := a.inbox ++ [m] } else a

/-- BaseAgent.send wraps a request into a Message with the emitting
agent as sender and an empty meta dict. -/
def mkMsg (sender : String) (r : SendReq) : Message :=
  ⟨sender, r.recipient, r.topic, r.payload, []⟩

/-- Result of delivering a message or running handler emissions:
the mutated bus state, how many `bus.send` invocations happened inside,
and the exception propagating out, if any. -/
structure DOut where
  state : BusState
  count : Nat
  err : Option PyError

/-- Result of one `MessageBus.send` invocation: the mutated state, the
total number of `send` invocations it made (itself included), the names
the dispatch directly invoked `receive` on (in order), and the
propagating exception, if any. -/
structure SendOut where
  state : BusState
  count : Nat
  direct : List String
  err : Option PyError

/-- Run a handler's send requests in order (the recursive `bus.send`
calls its reaction makes), stopping at the first exception. -/
def runReqs (snd : BusState → Message → Option SendOut) (sender : String) :
    BusState → List SendReq → Option DOut
  | s, [] => Option.some ⟨s, 0, Option.none⟩
  | s, r :: rs =>
    match snd s (mkMsg sender r) with
    | Option.none => Option.none
    | Option.some o =>
      match o.err with
      | Option.some e => Option.some ⟨o.state, o.count, Option.some e⟩
      | Option.none =>
        match runReqs snd sender o.state rs with
        | Option.none => Option.none
        | Option.some o2 => Option.some ⟨o2.state, o.count + o2.count, o2.err⟩

/-- Invoke `agent.receive(msg)` on the agent registered under `n`:
append to its inbox, run its reaction, and run the reaction's emissions
through the bus. -/
def deliverTo (snd : BusState → Message → Option SendOut) (s : BusState)
    (n : String) (m : Message) : Option DOut :=
  match s.agents.find? (fun a => a.name == n) with
  | Option.none => Option.some ⟨s, 0, Option.none⟩
  | Option.some a =>
    let s2 : BusState := { s with agents := s.agents.map (updAgent n m) }
    match AgentKind.handleOf a.kind a.name m with
    | Except.error e => Option.some ⟨s2, 0, Option.some e⟩
    | Except.ok reqs => runReqs snd a.name s2 reqs

/-- The broadcast loop `for agent in self._agents.values():
agent.receive(msg)`: deliver to each name in registry order, stopping at
the first exception; returns the names actually delivered to. -/
def runBcast (snd : BusState → Message → Option SendOut) (m : Message) :
    BusState → List String → Option (List String × DOut)
  | s, [] => Option.some ([], ⟨s, 0, Option.none⟩)
  | s, n :: ns =>
    match deliverTo snd s n m with
    | Option.none => Option.none
    | Option.some o =>
      match o.err with
      | Option.some e => Option.some ([n], ⟨o.state, o.count, Option.some e⟩)
      | Option.none =>
        match runBcast snd m o.state ns with
        | Option.none => Option.none
        | Option.some (ds, o2) =>
            Option.some (n :: ds, ⟨o2.state, o.count + o2.count, o2.err⟩)

/-- The dispatch part of MessageBus.send, after the history append has
produced the state s1: if the recipient is truthy, look it up in the
registry and deliver to it when found (silently drop when not);
otherwise deliver to every registered handler in registry order. -/
def sendBody (snd : BusState → Message → Option SendOut) (s1 : BusState)
    (msg : Message) : Option SendOut :=
  if pyTruthy msg.recipient then
    match s1.agents.find? (fun a => a.name == msg.recipient.getD "") with
    | Option.some _ =>
      match deliverTo snd s1 (msg.recipient.getD "") msg with
      | Option.none => Option.none
      | Option.some o =>
          Option.some ⟨o.state, o.count + 1, [msg.recipient.getD ""], o.err⟩
    | Option.none => Option.some ⟨s1, 1, [], Option.none⟩
  else
    match runBcast snd msg s1 (s1.agents.map (fun a => a.name)) with
    | Option.none => Option.none
    | Option.some (ds, o) => Option.some ⟨o.state, o.count + 1, ds, o.err⟩

/-- Embeds MessageBus.send of src/agents.py, with fuel bounding the
depth of recursive re-entrant sends.  In order: append the message to
history unconditionally, even if it is undeliverable, then dispatch. -/
def sendFuel : Nat → BusState → Message → Option SendOut
  | 0, _, _ => Option.none
  | Nat.succ fuel, s, msg =>
    sendBody (sendFuel fuel) { s with hist := s.hist ++ [msg] } msg

/-- One agent state extends another: same identity and policy, inbox
only grown by appending. -/
def AgentExt (a b : Agent) : Prop :=
  b.name = a.name ∧ b.kind = a.kind ∧ ∃ t, b.inbox = a.inbox ++ t

/-- Pointwise extension of a registry: same length, same names and
policies in the same order, inboxes only appended to. -/
def AgentsExt (l l2 : List Agent) : Prop := List.Forall₂ AgentExt l l2

/-- The master invariant of one bus send invocation: the registry is
only extended pointwise (never reordered, no agent added or dropped),
the history gains the sent message first and then everything the
delivery triggered, and the number of appended history entries equals
the number of send invocations made. -/
def SendSpec (snd : BusState → Message → Option SendOut) : Prop :=
  ∀ s m o, snd s m = Option.some o →
    AgentsExt s.agents o.state.agents ∧
    ∃ t, o.state.hist = s.hist ++ m :: t ∧ t.length + 1 = o.count

/-- The corresponding invariant for the delivery helpers, which append
one history entry per send invocation they make. -/
def DSpec (s : BusState) (o : DOut) : Prop :=
  AgentsExt s.agents o.state.agents ∧
  ∃ t, o.state.hist = s.hist ++ t ∧ t.length = o.count

/- ----------------------------------------------------------------
Heap model for the history snapshot claim: Python objects are mutable
and shared by reference.  The bus history holds references to Message
cells; MessageBus.history copies the list of references but not the
cells, so a caller mutating a Message obtained from the snapshot
mutates the very cell the bus still references.
---------------------------------------------------------------- -/

/-- Default Message used to total the heap dereference. -/
def mDefault : Message := ⟨"", Option.none, "", [], []⟩

/-- A heap of Message cells; a reference is an index into it. -/
structure Heap where
  cells : List Message

/-- The bus history as the Python list object holds it: a list of
references to Message cells. -/
structure BusH where
  histRefs : List Nat

/-- Dereference a Message cell. -/
def derefD (h : Heap) (i : Nat) : Message := h.cells.getD i mDefault

/-- In-place mutation of a Message object, as Python field assignment
on a dataclass instance does. -/
def setCell (h : Heap) (i : Nat) (m : Message) : Heap := ⟨h.cells.set i m⟩

/-- The history append of MessageBus.send in heap terms: allocate the
message cell and append the reference to the history list. -/
def sendH (h : Heap) (b : BusH) (m : Message) : Heap × BusH :=
  (⟨h.cells ++ [m]⟩, ⟨b.histRefs ++ [h.cells.length]⟩)

/-- MessageBus.history, heap view: list(self._history) copies the list
of references, sharing the referenced Message cells. -/
def historyH (b : BusH) : List Nat := b.histRefs

/-- What a caller holding a history snapshot actually reads: each
reference dereferenced in the current heap. -/
def histView (h : Heap) (b : BusH) : List Message :=
  (historyH b).map (derefD h)

/- ----------------------------------------------------------------
Concrete instances used by the closed evaluation theorems below.
---------------------------------------------------------------- -/

/-- Empty bus for the history count witness. -/
def busW1 : BusState := ⟨[], []⟩

/-- A directed message to an identity absent from the registry. -/
def msgW1 : Message := ⟨"alice", Option.some "bob", "ping", [], []⟩

/-- Outcome of sending msgW1 on busW1. -/
def outW1 : SendOut := ⟨⟨[], [msgW1]⟩, 1, [], Option.none⟩

/-- Bus holding one decision agent. -/
def busW2 : BusState := ⟨[⟨"decider", AgentKind.decision, []⟩], []⟩

/-- A directed message on a topic the decision agent ignores. -/
def msgW2 : Message := ⟨"tester", Option.some "decider", "hello", [], []⟩

/-- Outcome of sending msgW2 on busW2. -/
def outW2 : SendOut :=
  ⟨⟨[⟨"decider", AgentKind.decision, [msgW2]⟩], [msgW2]⟩, 1, ["decider"],
    Option.none⟩

/-- Bus holding the echo agent then the decision agent, in that order. -/
def busC3 : BusState :=
  ⟨[⟨"echoer", AgentKind.echo, []⟩, ⟨"decider", AgentKind.decision, []⟩], []⟩

/-- A broadcast message on topic echo. -/
def msgC3 : Message := ⟨"tester", Option.none, "echo", [], []⟩

/-- Outcome of broadcasting msgC3 on busC3: the echo reaction raises,
aborting the loop before the decision agent is reached. -/
def outC3 : SendOut :=
  ⟨⟨[⟨"echoer", AgentKind.echo, [msgC3]⟩, ⟨"decider", AgentKind.decision, []⟩],
      [msgC3]⟩, 1, ["echoer"], Option.some PyError.attributeError⟩

/-- Bus with one agent named dup. -/
def busW4 : BusState := ⟨[⟨"dup", AgentKind.echo, []⟩], []⟩

/-- A second agent under the same name dup. -/
def agentW4 : Agent := ⟨"dup", AgentKind.decision, []⟩

/-- Bus holding only the echo agent. -/
def busC5 : BusState := ⟨[⟨"echoer", AgentKind.echo, []⟩], []⟩

/-- The echo round-trip scenario message of the spec. -/
def msgC5 : Message :=
  ⟨"tester", Option.some "echoer", "echo", [("x", Val.num 1)], []⟩

/-- Outcome of sending msgC5 on busC5: the reaction raises
AttributeError and no echo.reply is produced. -/
def outC5 : SendOut :=
  ⟨⟨[⟨"echoer", AgentKind.echo, [msgC5]⟩], [msgC5]⟩, 1, ["echoer"],
    Option.some PyError.attributeError⟩

/-- A message whose topic merely starts with the bare mapping key
score without being equal to it. -/
def msgC6 : Message :=
  ⟨"tester", Option.some "router", "scoreboard", [("n", Val.num 2)], []⟩

/-- A routed message for the router witness. -/
def msgW6 : Message :=
  ⟨"tester", Option.some "router", "echo.hello", [("txt", Val.str "hi")], []⟩

/-- A score message with a numeric value and a string threshold. -/
def msgC7 : Message :=
  ⟨"tester", Option.some "decider", "score",
    [("value", Val.num 1), ("threshold", Val.str "x")], []⟩

/-- A score message with a numeric value and no threshold. -/
def msgW7 : Message :=
  ⟨"tester", Option.some "decider", "score", [("value", Val.num 1)], []⟩

/-- The message cell recorded in the heap model instance. -/
def mC9 : Message := ⟨"client", Option.none, "echo", [], []⟩

/-- Heap after one send of mC9. -/
def heapC9 : Heap := ⟨[mC9]⟩

/-- Bus history after one send of mC9: one reference, to cell 0. -/
def busC9 : BusH := ⟨[0]⟩

/-- The same Message object after a caller assigns a new topic to it. -/
def mC9mut : Message := ⟨"client", Option.none, "mut", [], []⟩

/-- A reply-topic message for the router reply-loop witness. -/
def msgW8 : Message := ⟨"tester", Option.none, "echo.reply", [], []⟩

/-- Bus holding one decision agent, for the empty recipient witness. -/
def busW10 : BusState := ⟨[⟨"decider", AgentKind.decision, []⟩], []⟩

/-- A message whose recipient is the empty string. -/
def msgW10 : Message := ⟨"tester", Option.some "", "hello", [], []⟩

/-- Outcome of sending msgW10 on busW10: delivered as a broadcast. -/
def outW10 : SendOut :=
  ⟨⟨[⟨"decider", AgentKind.decision, [msgW10]⟩], [msgW10]⟩, 1, ["decider"],
    Option.none⟩

/- ----------------------------------------------------------------
Structural lemmas.
---------------------------------------------------------------- -/

theorem agentExt_refl (a : Agent) : AgentExt a a :=
  ⟨rfl, rfl, [], by simp⟩

theorem agentExt_trans {a b c : Agent} (h1 : AgentExt a b) (h2 : AgentExt b c) :
    AgentExt a c := by
  obtain ⟨hn1, hk1, t1, hi1⟩ := h1
  obtain ⟨hn2, hk2, t2, hi2⟩ := h2
  exact ⟨hn2.trans hn1, hk2.trans hk1, t1 ++ t2, by simp [hi2, hi1]⟩

theorem agentsExt_refl (l : List Agent) : AgentsExt l l :=
  List.forall₂_same.mpr (fun a _ => agentExt_refl a)

theorem agentsExt_trans : ∀ {l1 l2 l3 : List Agent},
    AgentsExt l1 l2 → AgentsExt l2 l3 → AgentsExt l1 l3 := by
  intro l1 l2 l3 h1 h2
  induction h1 generalizing l3 with
  | nil => cases h2; exact List.Forall₂.nil
  | cons hab htail ih =>
    cases h2 with
    | cons hbc h2t => exact List.Forall₂.cons (agentExt_trans hab hbc) (ih h2t)

theorem agentsExt_upd (l : List Agent) (n : String) (m : Message) :
    AgentsExt l (l.map (updAgent n m)) := by
  induction l with
  | nil => exact List.Forall₂.nil
  | cons a as ih =>
    refine List.Forall₂.cons ?_ ih
    by_cases hc : (a.name == n) = true
    · exact ⟨by simp [updAgent, hc], by simp [updAgent, hc], [m],
        by simp [updAgent, hc]⟩
    · simp only [Bool.not_eq_true] at hc
      exact ⟨by simp [updAgent, hc], by simp [updAgent, hc], [],
        by simp [updAgent, hc]⟩

theorem listInbox_ext : ∀ {l l2 : List Agent}, AgentsExt l l2 →
    ∀ n : String, ∃ t, listInbox l2 n = listInbox l n ++ t := by
  intro l l2 h
  induction h with
  | nil => exact fun n => ⟨[], rfl⟩
  | @cons a b l1 l2 hab htail ih =>
    intro n
    obtain ⟨hname, _hkind, t, hinbox⟩ := hab
    by_cases hc : (a.name == n) = true
    · exact ⟨t, by simp [listInbox, hname, hc, hinbox]⟩
    · simp only [Bool.not_eq_true] at hc
      obtain ⟨t2, ht2⟩ := ih n
      exact ⟨t2, by simp [listInbox, hname, hc, ht2]⟩

theorem listInbox_upd : ∀ (l : List Agent) (n : String) (m : Message),
    (l.find? (fun a => a.name == n)).isSome = true →
    listInbox (l.map (updAgent n m)) n = listInbox l n ++ [m] := by
  intro l n m h
  induction l with
  | nil => simp [List.find?] at h
  | cons a as ih =>
    by_cases hc : (a.name == n) = true
    · simp [listInbox, updAgent, hc]
    · simp only [Bool.not_eq_true] at hc
      simp only [List.find?, hc] at h
      simp [listInbox, updAgent, hc, ih h]

theorem find?_concat_of_all_neg {α : Type} (p : α → Bool) :
    ∀ (l1 : List α) (x : α) (l2 : List α),
      l1.all (fun y => !p y) = true → p x = true →
      (l1 ++ x :: l2).find? p = Option.some x := by
  intro l1
  induction l1 with
  | nil => intro x l2 _ hx; simp [List.find?, hx]
  | cons a as ih =>
    intro x l2 hall hx
    have h1 : p a = false := by
      have := (List.all_eq_true.mp hall) a (by simp)
      simpa using this
    have h2 : as.all (fun y => !p y) = true := by
      rw [List.all_eq_true] at hall ⊢
      intro y hy
      exact hall y (by simp [hy])
    rw [List.cons_append, List.find?_cons]
    simp [h1, ih x l2 h2 hx]

theorem find?_isSome_of_mem {α : Type} (p : α → Bool) :
    ∀ (l : List α) (x : α), x ∈ l → p x = true →
      (l.find? p).isSome = true := by
  intro l
  induction l with
  | nil => intro x hx _; simp at hx
  | cons y ys ih =>
    intro x hx hpx
    rcases List.mem_cons.mp hx with hx | hx
    · subst hx
      simp [List.find?_cons, hpx]
    · cases hy : p y with
      | true => simp [List.find?_cons, hy]
      | false => simpa [List.find?_cons, hy] using ih x hx hpx

theorem list_set_getD_self : ∀ (l : List Message) (i : Nat) (m d : Message),
    i < l.length → (l.set i m).getD i d = m := by
  intro l
  induction l with
  | nil => intro i m d hi; simp at hi
  | cons a as ih =>
    intro i m d hi
    cases i with
    | zero => simp
    | succ j => simpa using ih j m d (by simpa using hi)

theorem list_set_getD_other : ∀ (l : List Message) (i j : Nat) (m d : Message),
    j ≠ i → (l.set i m).getD j d = l.getD j d := by
  intro l
  induction l with
  | nil => intro i j m d _; simp
  | cons a as ih =>
    intro i j m d hne
    cases i with
    | zero =>
      cases j with
      | zero => exact absurd rfl hne
      | succ j2 => simp
    | succ i2 =>
      cases j with
      | zero => simp
      | succ j2 => simpa using ih i2 j2 m d (fun hx => hne (by rw [hx]))

/- ----------------------------------------------------------------
Invariant lemmas for the delivery machinery.
---------------------------------------------------------------- -/

theorem runReqs_spec (snd : BusState → Message → Option SendOut)
    (H : SendSpec snd) (sender : String) :
    ∀ (rs : List SendReq) (s : BusState) (o : DOut),
      runReqs snd sender s rs = Option.some o → DSpec s o := by
  intro rs
  induction rs with
  | nil =>
    intro s o h
    simp only [runReqs, Option.some.injEq] at h
    subst h
    exact ⟨agentsExt_refl _, [], by simp, rfl⟩
  | cons r rest ih =>
    intro s o h
    simp only [runReqs] at h
    split at h
    · exact absurd h (by simp)
    · rename_i o1 h1
      obtain ⟨hext1, t1, hh1, hc1⟩ := H _ _ _ h1
      split at h
      · rename_i e he
        simp only [Option.some.injEq] at h
        subst h
        exact ⟨hext1, mkMsg sender r :: t1, by simpa using hh1, by simpa using hc1⟩
      · rename_i he
        split at h
        · exact absurd h (by simp)
        · rename_i o2 h2
          simp only [Option.some.injEq] at h
          subst h
          obtain ⟨hext2, t2, hh2, hc2⟩ := ih _ _ h2
          refine ⟨agentsExt_trans hext1 hext2, (mkMsg sender r :: t1) ++ t2, ?_, ?_⟩
          · simp [hh2, hh1]
          · simp only [List.length_append, List.length_cons]
            omega

theorem deliverTo_spec (snd : BusState → Message → Option SendOut)
    (H : SendSpec snd) (n : String) (m : Message) :
    ∀ (s : BusState) (o : DOut), deliverTo snd s n m = Option.some o → DSpec s o := by
  intro s o h
  simp only [deliverTo] at h
  split at h
  · simp only [Option.some.injEq] at h
    subst h
    exact ⟨agentsExt_refl _, [], by simp, rfl⟩
  · rename_i a hf
    split at h
    · rename_i e hh
      simp only [Option.some.injEq] at h
      subst h
      exact ⟨agentsExt_upd _ _ _, [], by simp, rfl⟩
    · rename_i reqs hh
      obtain ⟨hext, t, hhist, hcnt⟩ :=
        runReqs_spec snd H a.name reqs _ o h
      exact ⟨agentsExt_trans (agentsExt_upd _ _ _) hext, t, hhist, hcnt⟩

theorem runBcast_spec (snd : BusState → Message → Option SendOut)
    (H : SendSpec snd) (m : Message) :
    ∀ (ns : List String) (s : BusState) (ds : List String) (o : DOut),
      runBcast snd m s ns = Option.some (ds, o) →
      DSpec s o ∧ (o.err = Option.none → ds = ns) ∧ ds.head? = ns.head? := by
  intro ns
  induction ns with
  | nil =>
    intro s ds o h
    simp only [runBcast, Option.some.injEq, Prod.mk.injEq] at h
    obtain ⟨hds, ho⟩ := h
    subst hds; subst ho
    exact ⟨⟨agentsExt_refl _, [], by simp, rfl⟩, fun _ => rfl, rfl⟩
  | cons n ns ih =>
    intro s ds o h
    simp only [runBcast] at h
    split at h
    · exact absurd h (by simp)
    · rename_i o1 h1
      obtain ⟨hext1, t1, hh1, hc1⟩ := deliverTo_spec snd H n m _ _ h1
      split at h
      · rename_i e he
        simp only [Option.some.injEq, Prod.mk.injEq] at h
        obtain ⟨hds, ho⟩ := h
        subst hds; subst ho
        refine ⟨⟨hext1, t1, hh1, hc1⟩, ?_, rfl⟩
        intro hx
        exact absurd hx (by simp)
      · rename_i he
        split at h
        · exact absurd h (by simp)
        · rename_i ds2 o2 h2
          simp only [Option.some.injEq, Prod.mk.injEq] at h
          obtain ⟨hds, ho⟩ := h
          subst hds; subst ho
          obtain ⟨⟨hext2, t2, hh2, hc2⟩, hdall, _hdhead⟩ := ih _ _ _ h2
          refine ⟨⟨agentsExt_trans hext1 hext2, t1 ++ t2, ?_, ?_⟩, ?_, rfl⟩
          · simp [hh2, hh1]
          · simp only [List.length_append]
            omega
          · intro hx
            simp [hdall hx]

theorem sendBody_spec (snd : BusState → Message → Option SendOut)
    (H : SendSpec snd) (s1 : BusState) (msg : Message) (o : SendOut)
    (h : sendBody snd s1 msg = Option.some o) :
    AgentsExt s1.agents o.state.agents ∧
    ∃ t, o.state.hist = s1.hist ++ t ∧ t.length + 1 = o.count := by
  simp only [sendBody] at h
  split at h
  · split at h
    · rename_i a hf
      split at h
      · exact absurd h (by simp)
      · rename_i o1 h1
        simp only [Option.some.injEq] at h
        subst h
        obtain ⟨hext, t, hh, hc⟩ :=
          deliverTo_spec snd H (msg.recipient.getD "") msg _ _ h1
        exact ⟨hext, t, hh, by simpa using hc⟩
    · simp only [Option.some.injEq] at h
      subst h
      exact ⟨agentsExt_refl _, [], by simp, rfl⟩
  · split at h
    · exact absurd h (by simp)
    · rename_i ds o1 h1
      simp only [Option.some.injEq] at h
      subst h
      obtain ⟨⟨hext, t, hh, hc⟩, _, _⟩ := runBcast_spec snd H msg _ _ _ _ h1
      exact ⟨hext, t, hh, by simpa using hc⟩

theorem sendFuel_spec : ∀ fuel : Nat, SendSpec (sendFuel fuel) := by
  intro fuel
  induction fuel with
  | zero =>
    intro s m o h
    simp [sendFuel] at h
  | succ fuel ih =>
    intro s m o h
    simp only [sendFuel] at h
    obtain ⟨hext, t, hh, hc⟩ := sendBody_spec (sendFuel fuel) ih _ m o h
    exact ⟨hext, t, by simpa using hh, hc⟩

/- ----------------------------------------------------------------
Delivery observations used by the directed and broadcast claims.
---------------------------------------------------------------- -/

theorem deliverTo_inbox (snd : BusState → Message → Option SendOut)
    (H : SendSpec snd) (s : BusState) (n : String) (m : Message) (o : DOut)
    (hfind : (s.agents.find? (fun a => a.name == n)).isSome = true)
    (h : deliverTo snd s n m = Option.some o) :
    ∃ rest, listInbox o.state.agents n = listInbox s.agents n ++ m :: rest := by
  simp only [deliverTo] at h
  split at h
  · rename_i hf
    rw [hf] at hfind
    simp at hfind
  · rename_i a hf
    have hupd : listInbox (s.agents.map (updAgent n m)) n
        = listInbox s.agents n ++ [m] := listInbox_upd s.agents n m hfind
    split at h
    · rename_i e hh
      simp only [Option.some.injEq] at h
      subst h
      exact ⟨[], by simp [hupd]⟩
    · rename_i reqs hh
      obtain ⟨hext, _, _, _⟩ := runReqs_spec snd H a.name reqs _ o h
      obtain ⟨t2, ht2⟩ := listInbox_ext hext n
      refine ⟨t2, ?_⟩
      rw [ht2, hupd]
      simp

theorem sendBody_directed (snd : BusState → Message → Option SendOut)
    (H : SendSpec snd) (s1 : BusState) (msg : Message) (o : SendOut)
    (r : String) (hr : msg.recipient = Option.some r) (hne : r ≠ "")
    (h : sendBody snd s1 msg = Option.some o) :
    ((s1.agents.find? (fun a => a.name == r)).isSome = true →
        o.direct = [r] ∧
        ∃ rest, listInbox o.state.agents r = listInbox s1.agents r ++ msg :: rest) ∧
    (s1.agents.find? (fun a => a.name == r) = Option.none →
        o = ⟨s1, 1, [], Option.none⟩) := by
  have hrb : (r == "") = false := by
    cases hx : r == "" with
    | true => exact absurd (by simpa using hx) hne
    | false => rfl
  have hb : pyTruthy msg.recipient = true := by
    rw [hr]
    simp [pyTruthy, hrb]
  have hg : msg.recipient.getD "" = r := by rw [hr]; rfl
  rw [sendBody, hg, if_pos (by rw [hb])] at h
  split at h
  · rename_i a hf
    split at h
    · exact absurd h (by simp)
    · rename_i o1 h1
      simp only [Option.some.injEq] at h
      subst h
      constructor
      · intro hfind
        exact ⟨rfl, deliverTo_inbox snd H s1 r msg o1 hfind h1⟩
      · intro hf2
        rw [hf] at hf2
        exact absurd hf2 (by simp)
  · rename_i hf
    simp only [Option.some.injEq] at h
    subst h
    constructor
    · intro hfind
      rw [hf] at hfind
      simp at hfind
    · intro _
      rfl

theorem sendBody_bcast (snd : BusState → Message → Option SendOut)
    (H : SendSpec snd) (s1 : BusState) (msg : Message) (o : SendOut)
    (hb : pyTruthy msg.recipient = false)
    (h : sendBody snd s1 msg = Option.some o) :
    (o.err = Option.none → o.direct = s1.agents.map (fun a => a.name)) ∧
    o.direct.head? = (s1.agents.map (fun a => a.name)).head? := by
  rw [sendBody, if_neg (by rw [hb]; simp)] at h
  split at h
  · exact absurd h (by simp)
  · rename_i ds o1 h1
    simp only [Option.some.injEq] at h
    subst h
    obtain ⟨_, hdall, hdhead⟩ := runBcast_spec snd H msg _ _ _ _ h1
    exact ⟨fun hx => hdall hx, hdhead⟩

/- ----------------------------------------------------------------
Claim theorems.
---------------------------------------------------------------- -/

/-- C1: every completed send appends its own message to the history
first, before anything its delivery triggers, exactly once; the
history grows by exactly the number of send invocations the call made
(recursive re-entrant sends included), and everything a delivery emits
lands in history after the delivered message and before the send
returns (depth-first segment). -/
theorem send_appends_depth_first (fuel : Nat) (s : BusState) (msg : Message)
    (o : SendOut) (h : sendFuel fuel s msg = Option.some o) :
    ∃ t, MessageBus.history o.state = MessageBus.history s ++ msg :: t ∧
      (MessageBus.history o.state).length =
        (MessageBus.history s).length + o.count := by
  obtain ⟨_, t, hh, hc⟩ := sendFuel_spec fuel s msg o h
  refine ⟨t, hh, ?_⟩
  simp only [MessageBus.history, hh, List.length_append, List.length_cons]
  omega

/-- C1 witness: a send on the empty bus appends one entry and counts
one invocation. -/
theorem send_appends_depth_first_witness :
    sendFuel 1 busW1 msgW1 = Option.some outW1 ∧
    ∃ t, MessageBus.history outW1.state = MessageBus.history busW1 ++ msgW1 :: t ∧
      (MessageBus.history outW1.state).length =
        (MessageBus.history busW1).length + outW1.count :=
  ⟨rfl, send_appends_depth_first 1 busW1 msgW1 outW1 rfl⟩

/-- C2: a directed message to a present identity is dispatched to
exactly that handler and no other (the dispatch invokes receive on the
named agent alone, and the message lands in its inbox right away); a
directed message to an absent identity is recorded in history with no
handler invoked, no error raised, no other state change, and exactly
one send invocation counted. -/
theorem send_directed_delivery (fuel : Nat) (s : BusState) (msg : Message)
    (o : SendOut) (r : String) (hr : msg.recipient = Option.some r)
    (hne : r ≠ "") (h : sendFuel fuel s msg = Option.some o) :
    ((s.agents.find? (fun a => a.name == r)).isSome = true →
        o.direct = [r] ∧
        ∃ rest, inboxOf o.state r = inboxOf s r ++ msg :: rest) ∧
    (s.agents.find? (fun a => a.name == r) = Option.none →
        o.direct = [] ∧ o.err = Option.none ∧ o.count = 1 ∧
        o.state.hist = s.hist ++ [msg] ∧ o.state.agents = s.agents) := by
  cases fuel with
  | zero => simp [sendFuel] at h
  | succ fuel =>
    simp only [sendFuel] at h
    have hsb := sendBody_directed (sendFuel fuel) (sendFuel_spec fuel)
      { s with hist := s.hist ++ [msg] } msg o r hr hne h
    constructor
    · intro hfind
      obtain ⟨hd, rest, hin⟩ := hsb.1 hfind
      exact ⟨hd, rest, hin⟩
    · intro hf
      have ho := hsb.2 hf
      rw [ho]
      exact ⟨rfl, rfl, rfl, rfl, rfl⟩

/-- C2 witness: a topic the decision agent ignores, directed to it,
is delivered to it alone. -/
theorem send_directed_delivery_witness :
    sendFuel 1 busW2 msgW2 = Option.some outW2 ∧
    (((busW2.agents.find? (fun a => a.name == "decider")).isSome = true →
        outW2.direct = ["decider"] ∧
        ∃ rest, inboxOf outW2.state "decider" =
          inboxOf busW2 "decider" ++ msgW2 :: rest) ∧
      (busW2.agents.find? (fun a => a.name == "decider") = Option.none →
        outW2.direct = [] ∧ outW2.err = Option.none ∧ outW2.count = 1 ∧
        outW2.state.hist = busW2.hist ++ [msgW2] ∧
        outW2.state.agents = busW2.agents)) :=
  ⟨rfl, send_directed_delivery 1 busW2 msgW2 outW2 "decider" rfl
    (by decide) rfl⟩

/-- C3: evaluation at the failing input.  Broadcasting a topic echo
message over the registry [echoer, decider] invokes receive on the
echo agent only: its reaction raises AttributeError (the bug in
EchoAgent.handle), the broadcast loop aborts, and the decision agent
never receives the message, against the claim that every currently
registered handler receives it exactly once. -/
theorem broadcast_aborted_by_echo_bug :
    sendFuel 1 busC3 msgC3 = Option.some outC3 ∧
    outC3.direct = ["echoer"] ∧
    outC3.err = Option.some PyError.attributeError ∧
    inboxOf outC3.state "decider" = [] :=
  ⟨rfl, rfl, rfl, rfl⟩

/-- C4: registering a handler under a name already present in the
registry returns ValueError and produces no new bus state; the handler
previously registered under that name remains queryable. -/
theorem register_duplicate_rejected (s : BusState) (a : Agent)
    (h : s.agents.any (fun b => b.name == a.name) = true) :
    MessageBus.register s a = Except.error PyError.valueError ∧
    (s.agents.find? (fun b => b.name == a.name)).isSome = true := by
  refine ⟨by simp [MessageBus.register, h], ?_⟩
  rw [List.any_eq_true] at h
  obtain ⟨x, hx, hpx⟩ := h
  exact find?_isSome_of_mem _ s.agents x hx hpx

/-- C4 witness: a second registration under the name dup is rejected
while the first remains queryable. -/
theorem register_duplicate_rejected_witness :
    busW4.agents.any (fun b => b.name == agentW4.name) = true ∧
    (MessageBus.register busW4 agentW4 = Except.error PyError.valueError ∧
      (busW4.agents.find? (fun b => b.name == agentW4.name)).isSome = true) :=
  ⟨rfl, register_duplicate_rejected busW4 agentW4 rfl⟩

/-- C5: evaluation at the failing input of the echo round-trip
scenario.  Sending the scenario message to the registered echo agent
ends in AttributeError (EchoAgent.handle evaluates the undefined
self.get_coordination()) and the history holds only the original
message: no echo.reply addressed to the tester is ever produced. -/
theorem echo_reaction_raises_no_reply :
    sendFuel 2 busC5 msgC5 = Option.some outC5 ∧
    outC5.err = Option.some PyError.attributeError ∧
    (MessageBus.history outC5.state).map Message.topic = ["echo"] ∧
    (MessageBus.history outC5.state).filter
      (fun m => m.topic == "echo.reply") = [] :=
  ⟨rfl, rfl, rfl, rfl⟩

/-- C6: counterexample to the separator rule.  A router whose mapping
holds the bare key score (no trailing separator) forwards the topic
scoreboard, which merely starts with score and is not equal to it:
the code matches every key by plain startswith. -/
theorem router_bare_key_forwards_nonexact_topic :
    RouterAgent.handle [("score", "decider")] "router" msgC6 =
      Except.ok [⟨Option.some "decider", "scoreboard", [("n", Val.num 2)]⟩] ∧
    msgC6.topic ≠ "score" :=
  ⟨rfl, by decide⟩

/-- C6 amended: for a non-self, non-reply message, the router forwards
exactly when some mapping key is a plain string prefix of the topic
(exact equality included, no separator requirement) and the first such
entry in insertion order has a truthy (non-empty) target: the forward
goes to that target, keeping topic and payload; with no prefix-matching
key, or with a first matching entry whose target is the empty string
(falsy under the if target: check), it sends nothing. -/
theorem router_forwards_on_any_topic_head (mapping preL postL : List (String × String))
    (k t selfName : String) (msg : Message)
    (hs : (msg.sender == selfName) = false)
    (hr : pyEndsWith msg.topic ".reply" = false) :
    (mapping.find? (fun kv => pyStartsWith msg.topic kv.1) = Option.none →
        RouterAgent.handle mapping selfName msg = Except.ok []) ∧
    (mapping = preL ++ (k, t) :: postL →
        preL.all (fun kv => !pyStartsWith msg.topic kv.1) = true →
        pyStartsWith msg.topic k = true →
        (t == "") = false →
        RouterAgent.handle mapping selfName msg =
          Except.ok [⟨Option.some t, msg.topic, msg.payload⟩]) ∧
    (mapping = preL ++ (k, t) :: postL →
        preL.all (fun kv => !pyStartsWith msg.topic kv.1) = true →
        pyStartsWith msg.topic k = true →
        (t == "") = true →
        RouterAgent.handle mapping selfName msg = Except.ok []) := by
  refine ⟨?_, ?_, ?_⟩
  · intro hnone
    simp [RouterAgent.handle, hs, hr, hnone]
  · intro hm hall hk htr
    have hfind : mapping.find? (fun kv => pyStartsWith msg.topic kv.1)
        = Option.some (k, t) := by
      rw [hm]
      exact find?_concat_of_all_neg _ preL (k, t) postL hall hk
    simp [RouterAgent.handle, hs, hr, hfind, htr]
  · intro hm hall hk htr
    have hfind : mapping.find? (fun kv => pyStartsWith msg.topic kv.1)
        = Option.some (k, t) := by
      rw [hm]
      exact find?_concat_of_all_neg _ preL (k, t) postL hall hk
    simp [RouterAgent.handle, hs, hr, hfind, htr]

/-- C6 amended witness: the first mapping entry with key echo. and the
truthy target echoer forwards topic echo.hello to echoer. -/
theorem router_forwards_on_any_topic_head_witness :
    (([("echo.", "echoer"), ("score", "decider")].find?
        (fun kv => pyStartsWith msgW6.topic kv.1) = Option.none →
        RouterAgent.handle [("echo.", "echoer"), ("score", "decider")]
          "router" msgW6 = Except.ok []) ∧
      ([("echo.", "echoer"), ("score", "decider")] =
          [] ++ ("echo.", "echoer") :: [("score", "decider")] →
        ([] : List (String × String)).all
            (fun kv => !pyStartsWith msgW6.topic kv.1) = true →
        pyStartsWith msgW6.topic "echo." = true →
        ("echoer" == "") = false →
        RouterAgent.handle [("echo.", "echoer"), ("score", "decider")]
          "router" msgW6 =
          Except.ok [⟨Option.some "echoer", msgW6.topic, msgW6.payload⟩]) ∧
      ([("echo.", "echoer"), ("score", "decider")] =
          [] ++ ("echo.", "echoer") :: [("score", "decider")] →
        ([] : List (String × String)).all
            (fun kv => !pyStartsWith msgW6.topic kv.1) = true →
        pyStartsWith msgW6.topic "echo." = true →
        ("echoer" == "") = true →
        RouterAgent.handle [("echo.", "echoer"), ("score", "decider")]
          "router" msgW6 = Except.ok [])) :=
  router_forwards_on_any_topic_head [("echo.", "echoer"), ("score", "decider")]
    [] [("score", "decider")] "echo." "echoer" "router" msgW6 rfl rfl

/-- Helper for C7: the Python comparison of a numeric value with a
non-numeric threshold raises TypeError. -/
theorem pyGE_typeError (a b : Val) (ha : a.isNumeric = true)
    (hb : b.isNumeric = false) :
    pyGE a b = Except.error PyError.typeError := by
  cases a <;> cases b <;> simp_all [pyGE, Val.isNumeric]

/-- C7 counterexample: a score message with numeric value 1 and string
threshold makes DecisionAgent.handle raise TypeError instead of
sending a decision reply, refuting the unconditional reply clause of
the claim for numeric values. -/
theorem decision_raises_on_string_threshold :
    ((pyGet msgC7.payload "value").getD Val.none).isNumeric = true ∧
    DecisionAgent.handle msgC7 = Except.error PyError.typeError :=
  ⟨rfl, rfl⟩

/-- C7 amended: on topic score, a non-numeric value draws exactly one
invalid_value reply to the sender with no accepted key; a numeric
value with a numeric (or absent, defaulting to 0) threshold draws
exactly one decision reply with accepted = (value >= threshold),
echoing value and threshold; a numeric value with a present
non-numeric threshold raises TypeError and no reply is sent. -/
theorem decision_policy (msg : Message) (h : msg.topic = "score") :
    (((pyGet msg.payload "value").getD Val.none).isNumeric = false →
        DecisionAgent.handle msg = Except.ok [⟨Option.some msg.sender, "decision",
          [("error", Val.str "invalid_value")]⟩] ∧
        pyGet [("error", Val.str "invalid_value")] "accepted" = Option.none) ∧
    (((pyGet msg.payload "value").getD Val.none).isNumeric = true →
        ((pyGet msg.payload "threshold").getD (Val.num 0)).isNumeric = true →
        DecisionAgent.handle msg = Except.ok [⟨Option.some msg.sender, "decision",
          [("accepted", Val.bool (decide
              (((pyGet msg.payload "threshold").getD (Val.num 0)).toRat ≤
                ((pyGet msg.payload "value").getD Val.none).toRat))),
            ("value", (pyGet msg.payload "value").getD Val.none),
            ("threshold", (pyGet msg.payload "threshold").getD (Val.num 0))]⟩]) ∧
    (((pyGet msg.payload "value").getD Val.none).isNumeric = true →
        ((pyGet msg.payload "threshold").getD (Val.num 0)).isNumeric = false →
        DecisionAgent.handle msg = Except.error PyError.typeError) := by
  have ht : (msg.topic == "score") = true := by simp [h]
  refine ⟨?_, ?_, ?_⟩
  · intro hv
    exact ⟨by simp [DecisionAgent.handle, ht, hv], rfl⟩
  · intro hv hth
    simp [DecisionAgent.handle, ht, hv, pyGE, hth]
  · intro hv hth
    simp [DecisionAgent.handle, ht, hv, pyGE_typeError _ _ hv hth]

/-- C7 amended witness: numeric value 1 and absent threshold produce
an accepted decision reply. -/
theorem decision_policy_witness :
    msgW7.topic = "score" ∧
    ((((pyGet msgW7.payload "value").getD Val.none).isNumeric = false →
        DecisionAgent.handle msgW7 = Except.ok [⟨Option.some msgW7.sender, "decision",
          [("error", Val.str "invalid_value")]⟩] ∧
        pyGet [("error", Val.str "invalid_value")] "accepted" = Option.none) ∧
      (((pyGet msgW7.payload "value").getD Val.none).isNumeric = true →
        ((pyGet msgW7.payload "threshold").getD (Val.num 0)).isNumeric = true →
        DecisionAgent.handle msgW7 = Except.ok [⟨Option.some msgW7.sender, "decision",
          [("accepted", Val.bool (decide
              (((pyGet msgW7.payload "threshold").getD (Val.num 0)).toRat ≤
                ((pyGet msgW7.payload "value").getD Val.none).toRat))),
            ("value", (pyGet msgW7.payload "value").getD Val.none),
            ("threshold", (pyGet msgW7.payload "threshold").getD (Val.num 0))]⟩]) ∧
      (((pyGet msgW7.payload "value").getD Val.none).isNumeric = true →
        ((pyGet msgW7.payload "threshold").getD (Val.num 0)).isNumeric = false →
        DecisionAgent.handle msgW7 = Except.error PyError.typeError)) :=
  ⟨rfl, decision_policy msgW7 rfl⟩

/-- C8: the router reacts with no message at all to any message whose
topic ends in .reply and to any message whose sender is the router
itself. -/
theorem router_ignores_replies_and_self (mapping : List (String × String))
    (selfName : String) (msg : Message)
    (h : pyEndsWith msg.topic ".reply" = true ∨ msg.sender = selfName) :
    RouterAgent.handle mapping selfName msg = Except.ok [] := by
  rcases h with h | h
  · simp [RouterAgent.handle, h]
  · simp [RouterAgent.handle, h]

/-- C8 witness: an echo.reply topic is ignored by the router. -/
theorem router_ignores_replies_and_self_witness :
    RouterAgent.handle [("echo.", "echoer")] "router" msgW8 = Except.ok [] :=
  router_ignores_replies_and_self [("echo.", "echoer")] "router" msgW8
    (Or.inl rfl)

/-- Pointwise map congruence used by the snapshot claim. -/
theorem map_congr_fun {α β : Type} (f g : α → β) :
    ∀ l : List α, (∀ a, f a = g a) → l.map f = l.map g := by
  intro l hfg
  induction l with
  | nil => rfl
  | cons x xs ih => simp [hfg x, ih]

/-- C9 counterexample: after one send, mutating the Message entry the
history snapshot exposes (assigning its topic in place) changes the
result of the next history call, with no send or register in between:
the snapshot copies the list but shares the Message objects. -/
theorem history_entry_mutation_visible :
    historyH busC9 = [0] ∧ derefD heapC9 0 = mC9 ∧
    histView (setCell heapC9 0 mC9mut) busC9 ≠ histView heapC9 busC9 := by
  refine ⟨rfl, rfl, ?_⟩
  intro hx
  have h1 : histView (setCell heapC9 0 mC9mut) busC9 = [mC9mut] := rfl
  have h2 : histView heapC9 busC9 = [mC9] := rfl
  rw [h1, h2] at hx
  simp only [List.cons.injEq, and_true] at hx
  have h3 : mC9mut.topic = mC9.topic := congrArg Message.topic hx
  exact absurd h3 (by decide)

/-- C9 amended: the history snapshot is a shallow copy.  Two calls
with no intervening send or register return the same sequence of
entries, and mutating the returned list object itself cannot reach the
bus (the reference list is copied); but the Message entries are shared,
so mutating the cell behind one returned entry is visible in every
subsequent history view at exactly the positions holding that
reference. -/
theorem history_snapshot_is_shallow (h : Heap) (b : BusH) (i : Nat)
    (m2 : Message) (hi : i < h.cells.length) :
    histView (setCell h i m2) b =
      (historyH b).map (fun j => if j = i then m2 else derefD h j) := by
  have hpt : ∀ j : Nat,
      derefD (setCell h i m2) j = if j = i then m2 else derefD h j := by
    intro j
    by_cases hj : j = i
    · subst hj
      rw [if_pos rfl]
      show (h.cells.set j m2).getD j mDefault = m2
      exact list_set_getD_self h.cells j m2 mDefault hi
    · rw [if_neg hj]
      show (h.cells.set i m2).getD j mDefault = h.cells.getD j mDefault
      exact list_set_getD_other h.cells i j m2 mDefault hj
  exact map_congr_fun _ _ (historyH b) hpt

/-- C9 amended witness: mutating the single recorded entry makes every
later view show the mutated message at its position. -/
theorem history_snapshot_is_shallow_witness :
    0 < heapC9.cells.length ∧
    histView (setCell heapC9 0 mC9mut) busC9 =
      (historyH busC9).map (fun j => if j = 0 then mC9mut else derefD heapC9 j) :=
  ⟨by decide, history_snapshot_is_shallow heapC9 busC9 0 mC9mut (by decide)⟩

/-- C10: a message whose recipient is the empty string takes the
broadcast branch (the dispatch tests the truthiness of the recipient,
and the empty string is falsy): in a run with no raising reaction the
dispatch reaches every registered handler in registry insertion order,
and in every completed run the first registered handler is reached —
the message is not treated as directed to a present-but-unknown
identity, which would reach no handler at all. -/
theorem empty_recipient_is_broadcast (fuel : Nat) (s : BusState)
    (msg : Message) (o : SendOut) (hr : msg.recipient = Option.some "")
    (h : sendFuel fuel s msg = Option.some o) :
    (o.err = Option.none → o.direct = s.agents.map (fun a => a.name)) ∧
    o.direct.head? = (s.agents.map (fun a => a.name)).head? := by
  cases fuel with
  | zero => simp [sendFuel] at h
  | succ fuel =>
    simp only [sendFuel] at h
    have hb : pyTruthy msg.recipient = false := by rw [hr]; rfl
    exact sendBody_bcast (sendFuel fuel) (sendFuel_spec fuel)
      { s with hist := s.hist ++ [msg] } msg o hb h

/-- C10 witness: recipient set to the empty string reaches the sole
registered handler as a broadcast. -/
theorem empty_recipient_is_broadcast_witness :
    sendFuel 1 busW10 msgW10 = Option.some outW10 ∧
    ((outW10.err = Option.none →
        outW10.direct = busW10.agents.map (fun a => a.name)) ∧
      outW10.direct.head? = (busW10.agents.map (fun a => a.name)).head?) :=
  ⟨rfl, empty_recipient_is_broadcast 1 busW10 msgW10 outW10 rfl rfl⟩

end Agents
